import Mathlib

/-!
# Shallow embedding of `py_csv_tagger/csv_tagger.py`

This file embeds the core data model and operations of the CSV tagger
(`csv_tagger.py`): the date parser, the record model (`CSVLine`), the
column mapping, the sheet state, the navigation engine
(`next_line`, `prev_line`, `next_tag`, `prev_tag`, `update_tag`),
the action dispatch of `interactive_modify`, the aggregation
(`print_global_summary`) and the JSON serialization
(`model_dump_json` / `model_validate_json`), and proves theorems
about them.

Modelling conventions:
* Python `float` amounts are modelled as `ℚ` (the claims under study
  only add amounts and compare them with `0`, never exercising
  floating-point rounding).
* Python exceptions are modelled with `Except PyError`; `PyError`
  distinguishes the exception classes that the code can raise
  (`ValueError`, `IndexError`, `ZeroDivisionError`).
* Python `dict` (insertion ordered) is modelled as an association
  list `List (String × α)`, new keys appended at the end.
* Python list indexing and slicing (negative indices wrap, slices
  clamp) are modelled by `pyNormIndex`, `pySliceFrom`, `pySliceTo`.
* The persisted JSON document is modelled as a `Json` AST whose
  objects are ordered association lists, so key order and extra
  fields of the serialized text are observable.
-/

/-- Python exception classes raised by the embedded code. -/
inductive PyError where
  | valueError
  | indexError
  | zeroDivisionError
  deriving DecidableEq, Repr

deriving instance DecidableEq for Except

/-- `CURRENT_VERSION` in `csv_tagger.py`. -/
def CURRENT_VERSION : String := "0.1.0"

/-! ## Dates (`datetime.date` and `strptime`) -/

/-- A calendar date, as `datetime.date` (year, month, day). -/
structure PyDate where
  year : Nat
  month : Nat
  day : Nat
  deriving DecidableEq, Repr

/-- Gregorian leap-year rule used by `datetime`. -/
def isLeapYear (y : Nat) : Bool :=
  (y % 4 == 0 && y % 100 != 0) || y % 400 == 0

/-- Number of days of a month, as validated by `datetime.date`. -/
def daysInMonth (y m : Nat) : Nat :=
  if m == 2 then (if isLeapYear y then 29 else 28)
  else if m == 4 || m == 6 || m == 9 || m == 11 then 30
  else 31

/-- Validity check performed by the `datetime.date` constructor:
`1 <= year <= 9999`, `1 <= month <= 12`, `1 <= day <= daysInMonth`. -/
def validDate (d : PyDate) : Bool :=
  1 ≤ d.year && d.year ≤ 9999 && 1 ≤ d.month && d.month ≤ 12 &&
  1 ≤ d.day && d.day ≤ daysInMonth d.year d.month

/-- The numeric value of a decimal digit character, `none` otherwise. -/
def charDigit (c : Char) : Option Nat :=
  if c.isDigit then some (c.toNat - 48) else none

/-- Value of a non-empty all-digit character string (decimal). -/
def digitsToNat : List Char → Option Nat
  | [] => none
  | cs => cs.foldl (fun acc c => do
      let a ← acc
      let d ← charDigit c
      pure (10 * a + d)) (some 0)

/-- Split a character list on a separator character (the field
boundaries that `strptime` derives from the literal separators of the
format string). -/
def splitOnChar (sep : Char) : List Char → List (List Char)
  | [] => [[]]
  | c :: cs =>
    match splitOnChar sep cs with
    | [] => if c = sep then [[], []] else [[c]]
    | h :: t => if c = sep then [] :: h :: t else (c :: h) :: t

/-- `strptime` field `%d`/`%m`: one or two decimal digits. -/
def parseNat12 : List Char → Option Nat
  | [c] => charDigit c
  | [c1, c2] => do pure (10 * (← charDigit c1) + (← charDigit c2))
  | _ => none

/-- `strptime` field `%Y`: exactly four decimal digits. -/
def parseNat4 : List Char → Option Nat
  | [c1, c2, c3, c4] => do
      pure (1000 * (← charDigit c1) + 100 * (← charDigit c2) +
            10 * (← charDigit c3) + (← charDigit c4))
  | _ => none

/-- Build a `datetime.date`, failing when the triple is not a real
calendar date (this is the check that rejects `31/02/2024`). -/
def mkDate (y m d : Nat) : Option PyDate :=
  let dt : PyDate := ⟨y, m, d⟩
  if validDate dt then some dt else none

/-- `datetime.datetime.strptime(s, "%d/%m/%Y").date()`. -/
def parseDMYslash (s : String) : Option PyDate :=
  match splitOnChar '/' s.toList with
  | [ds, ms, ys] => do mkDate (← parseNat4 ys) (← parseNat12 ms) (← parseNat12 ds)
  | _ => none

/-- `datetime.datetime.strptime(s, "%Y-%m-%d").date()`. -/
def parseYMDdash (s : String) : Option PyDate :=
  match splitOnChar '-' s.toList with
  | [ys, ms, ds] => do mkDate (← parseNat4 ys) (← parseNat12 ms) (← parseNat12 ds)
  | _ => none

/-- `datetime.datetime.strptime(s, "%Y/%m/%d").date()`. -/
def parseYMDslash (s : String) : Option PyDate :=
  match splitOnChar '/' s.toList with
  | [ys, ms, ds] => do mkDate (← parseNat4 ys) (← parseNat12 ms) (← parseNat12 ds)
  | _ => none

/-- `best_effort_date_parsing`: try `DATE_FORMAT` (`%d/%m/%Y`), then
`DATE_FORMAT_TER` (`%Y-%m-%d`), then `DATE_FORMAT_BIS` (`%Y/%m/%d`);
raise `ValueError` when none matches. -/
def best_effort_date_parsing (s : String) : Except PyError PyDate :=
  match parseDMYslash s with
  | some d => .ok d
  | none =>
    match parseYMDdash s with
    | some d => .ok d
    | none =>
      match parseYMDslash s with
      | some d => .ok d
      | none => .error .valueError

/-! ## Python list access helpers -/

/-- Normalize a Python list index: negative indices count from the
end; out-of-range indices are an `IndexError` (`none`). -/
def pyNormIndex (len : Nat) (i : Int) : Option Nat :=
  let j : Int := if i < 0 then i + len else i
  if 0 ≤ j ∧ j < (len : Int) then some j.toNat else none

/-- Python slice `l[k:]` (negative `k` counts from the end; the
result is clamped, never an error). -/
def pySliceFrom (l : List α) (k : Int) : List α :=
  if k < 0 then l.drop ((k + l.length).toNat) else l.drop k.toNat

/-- Python slice `l[:k]`. -/
def pySliceTo (l : List α) (k : Int) : List α :=
  if k < 0 then l.take ((k + l.length).toNat) else l.take k.toNat

/-- Python indexing `l[i]`, raising `IndexError` out of range. -/
def pyGet (l : List α) (i : Int) : Except PyError α :=
  match pyNormIndex l.length i with
  | some k =>
    if hk : k < l.length then .ok (l.get ⟨k, hk⟩) else .error .indexError
  | none => .error .indexError

/-! ## Record model -/

/-- `CSVLine`: one parsed spreadsheet row.  `dates` and `infos` are
insertion-ordered dicts, modelled as association lists. -/
structure CSVLine where
  content : List String
  dates : List (String × PyDate)
  tag : Option String
  infos : List (String × String)
  debit : ℚ
  credit : ℚ
  deriving DecidableEq, Repr

/-- `CSVMapping`: semantic-field → source-column indices. -/
structure CSVMapping where
  dates : List (String × Int)
  tag : Int
  infos : List (String × Int)
  debit : Int
  credit : Int
  deriving DecidableEq, Repr

/-- `CSVFile`: the raw table and the detected data start (the `path`
field is irrelevant to the claims and omitted). -/
structure CSVFile where
  content : List (List String)
  start : Int
  deriving DecidableEq, Repr

/-- `State`: the persisted aggregate. -/
structure State where
  version : String
  cursor : Int
  mapping : CSVMapping
  data : List CSVLine
  unparsed : List (List String)
  deriving DecidableEq, Repr

/-- Python `float(s)` on a cell, modelled for plain decimal literals
(optional sign, digits, optional fractional part); `none` is the
`ValueError` case. -/
def pyFloat (s : String) : Option ℚ :=
  let core (cs : List Char) : Option ℚ :=
    match cs.span (·.isDigit) with
    | (intPart, []) => (digitsToNat intPart).map (fun n => (n : ℚ))
    | (intPart, '.' :: fracPart) =>
      if intPart = [] ∧ fracPart = [] then none
      else if fracPart.all (·.isDigit) then do
        let ip ← if intPart = [] then some 0 else digitsToNat intPart
        let fp ← if fracPart = [] then some 0 else digitsToNat fracPart
        pure ((ip : ℚ) + (fp : ℚ) / ((10 : ℚ) ^ fracPart.length))
      else none
    | _ => none
  match s.toList with
  | '-' :: rest => (core rest).map (fun q => -q)
  | '+' :: rest => core rest
  | cs => core cs

/-- Sequence an `Except`-producing function over a list, stopping at
the first error (the behaviour of a Python comprehension whose body
can raise). -/
def mapExcept (f : α → Except ε β) : List α → Except ε (List β)
  | [] => .ok []
  | a :: l => do
    let b ← f a
    let bs ← mapExcept f l
    pure (b :: bs)

/-- One entry of the `dates` comprehension of `parse_csv_line`:
look the cell up by column index and run the date parser. -/
def dateField (ctn : List String) (p : String × Int) :
    Except PyError (String × PyDate) := do
  let cell ← pyGet ctn p.2
  let d ← best_effort_date_parsing cell
  pure (p.1, d)

/-- One entry of the `infos` comprehension of `parse_csv_line`:
copy the raw cell. -/
def infoField (ctn : List String) (p : String × Int) :
    Except PyError (String × String) := do
  let cell ← pyGet ctn p.2
  pure (p.1, cell)

/-- `parse_csv_line(ctn, mapping)`: numeric parse failures of the
debit/credit cells are recovered as `0`; an out-of-range column index
raises `IndexError`; an unparseable date cell raises the
`ValueError` of `best_effort_date_parsing`. -/
def parse_csv_line (ctn : List String) (mapping : CSVMapping) :
    Except PyError CSVLine := do
  let debitCell ← pyGet ctn mapping.debit
  let debit : ℚ := (pyFloat debitCell).getD 0
  let creditCell ← pyGet ctn mapping.credit
  let credit : ℚ := (pyFloat creditCell).getD 0
  let dates ← mapExcept (dateField ctn) mapping.dates
  let infos ← mapExcept (infoField ctn) mapping.infos
  pure { content := ctn, dates := dates, tag := none, infos := infos,
         debit := debit, credit := credit }

/-- `upgrade_csv(c, m)`: parse every row from `c.start` on; rows
before `c.start` are kept verbatim in `unparsed`. -/
def upgrade_csv (c : CSVFile) (m : CSVMapping) : Except PyError State := do
  let data ← mapExcept (fun line => parse_csv_line line m)
    (pySliceFrom c.content c.start)
  pure { version := CURRENT_VERSION, cursor := 0, mapping := m,
         data := data, unparsed := pySliceTo c.content c.start }

/-! ## Navigation engine -/

/-- `next_line`: cursor moves `+1` modulo `len(data)`; for empty data
the Python `%` raises `ZeroDivisionError`. -/
def next_line (s : State) : Except PyError State :=
  if s.data.length = 0 then .error .zeroDivisionError
  else .ok { s with cursor := (s.cursor + 1) % (s.data.length : Int) }

/-- `prev_line`: cursor moves `-1` modulo `len(data)`. -/
def prev_line (s : State) : Except PyError State :=
  if s.data.length = 0 then .error .zeroDivisionError
  else .ok { s with cursor := (s.cursor - 1) % (s.data.length : Int) }

/-- `next_tag`: first untagged line strictly after the cursor;
cursor unchanged when there is none (no wraparound). -/
def next_tag (s : State) : State :=
  match (pySliceFrom s.data (s.cursor + 1)).findIdx? (fun v => v.tag.isNone) with
  | some i => { s with cursor := 1 + i + s.cursor }
  | none => s

/-- `prev_tag`: first untagged line strictly before the cursor,
scanning backwards; cursor unchanged when there is none. -/
def prev_tag (s : State) : State :=
  match (pySliceTo s.data s.cursor).reverse.findIdx? (fun v => v.tag.isNone) with
  | some i => { s with cursor := s.cursor - i - 1 }
  | none => s

/-- A throw-away `CSVLine` used as the (unreachable) default of
`List.getD` below. -/
def dfltLine : CSVLine :=
  { content := [], dates := [], tag := none, infos := [], debit := 0, credit := 0 }

/-- `update_tag(name)`: set `data[cursor].tag = name`, then run
`next_tag`; indexing `data[cursor]` can raise `IndexError`. -/
def update_tag (name : String) (s : State) : Except PyError State :=
  match pyNormIndex s.data.length s.cursor with
  | some k =>
    let line := s.data.getD k dfltLine
    .ok (next_tag { s with data := s.data.set k { line with tag := some name } })
  | none => .error .indexError

/-- The action dispatch of `interactive_modify`:
`actions.get(i_action, update_tag(i_action))` over the literal table
`{"<": prev_line, ">": next_line, "": next_line, "«": prev_tag,
"»": next_tag, "?": show_help}` (`show_help` only prints and leaves
the state unchanged). `"q"`/`"quit"` never reach this dispatch. -/
def apply_action (s : State) (cmd : String) : Except PyError State :=
  if cmd = "<" then prev_line s
  else if cmd = ">" then next_line s
  else if cmd = "" then next_line s
  else if cmd = "«" then .ok (prev_tag s)
  else if cmd = "»" then .ok (next_tag s)
  else if cmd = "?" then .ok s
  else update_tag cmd s

/-! ## Aggregation engine (`print_global_summary`) -/

/-- `line.tag or "UNTAGGED"`: Python `or` falls through on falsy
values, so both an unset tag and the empty-string tag group under
`"UNTAGGED"`. -/
def lineKey (l : CSVLine) : String :=
  match l.tag with
  | none => "UNTAGGED"
  | some t => if t = "" then "UNTAGGED" else t

/-- `d.get(k, dflt)` on an insertion-ordered dict. -/
def dictGet (d : List (String × α)) (k : String) (dflt : α) : α :=
  match d.find? (fun p => p.1 == k) with
  | some p => p.2
  | none => dflt

/-- `d[k] = v` on an insertion-ordered dict: overwrite in place, or
append a fresh key at the end. -/
def dictSet (d : List (String × α)) (k : String) (v : α) : List (String × α) :=
  if d.any (fun p => p.1 == k) then
    d.map (fun p => if p.1 == k then (k, v) else p)
  else d ++ [(k, v)]

/-- Key lookup on an insertion-ordered dict (`k in d` plus `d[k]`). -/
def dictFind? (d : List (String × α)) (k : String) : Option α :=
  (d.find? (fun p => p.1 == k)).map Prod.snd

/-- One step of the accumulation loop of `print_global_summary`. -/
def summaryStep (acc : List (String × ℚ) × List (String × ℚ) × List (String × Nat))
    (line : CSVLine) :
    List (String × ℚ) × List (String × ℚ) × List (String × Nat) :=
  let t := lineKey line
  let tc := dictSet acc.1 t (dictGet acc.1 t 0 + line.credit)
  let td := dictSet acc.2.1 t (dictGet acc.2.1 t 0 + line.debit)
  let cnt := dictSet acc.2.2 t (dictGet acc.2.2 t 0 + 1)
  (tc, td, cnt)

/-- The three dicts `tags_credit`, `tags_debit`, `tags_count` built by
the loop of `print_global_summary`. -/
def global_summary (s : State) :
    List (String × ℚ) × List (String × ℚ) × List (String × Nat) :=
  s.data.foldl summaryStep ([], [], [])

/-- `print_global_summary`: after building the three dicts it
computes `tag_width = max(len(tag) for tag in tags_count.keys())`,
which raises `ValueError` on an empty generator, and then prints one
row `(tag, count, credit, debit, credit + debit)` per key of
`tags_count`, in insertion order.  The printed rows are returned as
structured tuples. -/
def print_global_summary (s : State) :
    Except PyError (List (String × Nat × ℚ × ℚ × ℚ)) :=
  let (tc, td, cnt) := global_summary s
  if cnt.isEmpty then .error .valueError
  else .ok (cnt.map (fun p =>
    let pos := dictGet tc p.1 0
    let neg := dictGet td p.1 0
    (p.1, p.2, pos, neg, pos + neg)))

/-! ## Serialization (`model_dump_json` / `model_validate_json`) -/

/-- The persisted JSON document, with objects as ordered association
lists so that the layout of the serialized text is observable. -/
inductive Json where
  | null
  | bool (b : Bool)
  | num (q : ℚ)
  | str (s : String)
  | arr (l : List Json)
  | obj (l : List (String × Json))

/-- Zero-pad a number to two digits, as `%02d` in `date.isoformat`. -/
def pad2 (n : Nat) : String :=
  String.mk [Nat.digitChar (n / 10 % 10), Nat.digitChar (n % 10)]

/-- Zero-pad a number to four digits, as `%04d` in `date.isoformat`
(years never exceed 9999 in `datetime`). -/
def pad4 (n : Nat) : String :=
  String.mk [Nat.digitChar (n / 1000 % 10), Nat.digitChar (n / 100 % 10),
             Nat.digitChar (n / 10 % 10), Nat.digitChar (n % 10)]

/-- `date.isoformat()`: `YYYY-MM-DD`. -/
def isoFormat (d : PyDate) : String :=
  pad4 d.year ++ "-" ++ pad2 d.month ++ "-" ++ pad2 d.day

/-- Pydantic's parsing of a JSON string into a `datetime.date`:
`YYYY-MM-DD` with a calendar-validity check. -/
def isoParse (s : String) : Option PyDate :=
  match s.toList with
  | [y1, y2, y3, y4, s1, m1, m2, s2, d1, d2] =>
    if s1 = '-' ∧ s2 = '-' then do
      let y := 1000 * (← charDigit y1) + 100 * (← charDigit y2) +
               10 * (← charDigit y3) + (← charDigit y4)
      let m := 10 * (← charDigit m1) + (← charDigit m2)
      let d := 10 * (← charDigit d1) + (← charDigit d2)
      mkDate y m d
    else none
  | _ => none

/-- Serialize a `CSVLine` (`model_dump_json` nested form, fields in
declaration order, dates ISO-formatted). -/
def lineToJson (l : CSVLine) : Json :=
  .obj [("content", .arr (l.content.map .str)),
        ("dates", .obj (l.dates.map (fun p => (p.1, .str (isoFormat p.2))))),
        ("tag", match l.tag with | none => .null | some t => .str t),
        ("infos", .obj (l.infos.map (fun p => (p.1, .str p.2)))),
        ("debit", .num l.debit),
        ("credit", .num l.credit)]

/-- Serialize a `CSVMapping`. -/
def mappingToJson (m : CSVMapping) : Json :=
  .obj [("dates", .obj (m.dates.map (fun p => (p.1, .num (p.2 : ℚ))))),
        ("tag", .num (m.tag : ℚ)),
        ("infos", .obj (m.infos.map (fun p => (p.1, .num (p.2 : ℚ))))),
        ("debit", .num (m.debit : ℚ)),
        ("credit", .num (m.credit : ℚ))]

/-- `write_state` / `s.model_dump_json()`: the serialized document,
fields in declaration order. -/
def stateToJson (s : State) : Json :=
  .obj [("version", .str s.version),
        ("cursor", .num (s.cursor : ℚ)),
        ("mapping", mappingToJson s.mapping),
        ("data", .arr (s.data.map lineToJson)),
        ("unparsed", .arr (s.unparsed.map (fun row => .arr (row.map .str))))]

/-- Look a field up in a JSON object (extra fields are ignored by
pydantic; a missing required field is a validation error). -/
def jsonField (l : List (String × Json)) (k : String) : Except PyError Json :=
  match l.find? (fun p => p.1 == k) with
  | some p => .ok p.2
  | none => .error .valueError

/-- Deserialize a JSON string. -/
def jsonStr : Json → Except PyError String
  | .str s => .ok s
  | _ => .error .valueError

/-- Deserialize a JSON integer (pydantic accepts a float with zero
fractional part for an `int` field). -/
def jsonInt : Json → Except PyError Int
  | .num q => if q.den = 1 then .ok q.num else .error .valueError
  | _ => .error .valueError

/-- Deserialize a JSON number into a `float` field. -/
def jsonNum : Json → Except PyError ℚ
  | .num q => .ok q
  | _ => .error .valueError

/-- Deserialize an `Optional[str]` field. -/
def jsonOptStr : Json → Except PyError (Option String)
  | .null => .ok none
  | .str s => .ok (some s)
  | _ => .error .valueError

/-- Deserialize a `Dict[str, α]` field. -/
def jsonDict (f : Json → Except PyError α) :
    Json → Except PyError (List (String × α))
  | .obj l => mapExcept (fun p => do pure (p.1, ← f p.2)) l
  | _ => .error .valueError

/-- Deserialize a `List[α]` field. -/
def jsonList (f : Json → Except PyError α) : Json → Except PyError (List α)
  | .arr l => mapExcept f l
  | _ => .error .valueError

/-- Deserialize a `datetime.date` field. -/
def jsonDate (j : Json) : Except PyError PyDate := do
  match isoParse (← jsonStr j) with
  | some d => .ok d
  | none => .error .valueError

/-- Deserialize a `CSVLine`. -/
def jsonToLine : Json → Except PyError CSVLine
  | .obj l => do
    let content ← jsonList jsonStr (← jsonField l "content")
    let dates ← jsonDict jsonDate (← jsonField l "dates")
    let tag ← jsonOptStr (← jsonField l "tag")
    let infos ← jsonDict jsonStr (← jsonField l "infos")
    let debit ← jsonNum (← jsonField l "debit")
    let credit ← jsonNum (← jsonField l "credit")
    pure { content := content, dates := dates, tag := tag, infos := infos,
           debit := debit, credit := credit }
  | _ => .error .valueError

/-- Deserialize a `CSVMapping`. -/
def jsonToMapping : Json → Except PyError CSVMapping
  | .obj l => do
    let dates ← jsonDict jsonInt (← jsonField l "dates")
    let tag ← jsonInt (← jsonField l "tag")
    let infos ← jsonDict jsonInt (← jsonField l "infos")
    let debit ← jsonInt (← jsonField l "debit")
    let credit ← jsonInt (← jsonField l "credit")
    pure { dates := dates, tag := tag, infos := infos,
           debit := debit, credit := credit }
  | _ => .error .valueError

/-- `read_state` / `State.model_validate_json`: structural validation
of the document; unknown fields are ignored, missing or ill-typed
fields are a `ValidationError`.  No version check happens here. -/
def jsonToState : Json → Except PyError State
  | .obj l => do
    let version ← jsonStr (← jsonField l "version")
    let cursor ← jsonInt (← jsonField l "cursor")
    let mapping ← jsonToMapping (← jsonField l "mapping")
    let data ← jsonList jsonToLine (← jsonField l "data")
    let unparsed ← jsonList (jsonList jsonStr) (← jsonField l "unparsed")
    pure { version := version, cursor := cursor, mapping := mapping,
           data := data, unparsed := unparsed }
  | _ => .error .valueError

/-- The top-level keys of a serialized document (the field names
visible in the persisted text). -/
def objKeys : Json → List String
  | .obj l => l.map Prod.fst
  | _ => []

/-- Outcome of the `validate` CLI command. -/
inductive ValidateResult where
  | parsed (versionWarning : Bool)
  | invalid
  deriving DecidableEq, Repr

/-- The `validate` CLI command: parse the document; on success report
a (non-fatal) warning exactly when the file's `version` differs from
`CURRENT_VERSION`; on failure report the validation error. -/
def validate_file (j : Json) : ValidateResult :=
  match jsonToState j with
  | .ok s => .parsed (s.version ≠ CURRENT_VERSION)
  | .error _ => .invalid

/-! ## Validity of in-memory states -/

/-- Keys of an association-list dict are distinct (a Python `dict`
cannot hold duplicate keys). -/
def dictNodup (d : List (String × α)) : Prop :=
  (d.map Prod.fst).Nodup

/-- A `CSVLine` as produced by the program: its dates are real
`datetime.date` values and its dicts have no duplicate keys. -/
def validLine (l : CSVLine) : Prop :=
  (∀ p ∈ l.dates, validDate p.2 = true) ∧ dictNodup l.dates ∧ dictNodup l.infos

/-- A `State` as held by the program (the serialization claims
quantify over these). -/
def validState (s : State) : Prop :=
  (∀ l ∈ s.data, validLine l) ∧ dictNodup s.mapping.dates ∧
  dictNodup s.mapping.infos

instance (d : List (String × α)) : Decidable (dictNodup d) := by
  unfold dictNodup
  infer_instance

instance (l : CSVLine) : Decidable (validLine l) := by
  unfold validLine
  infer_instance

instance (s : State) : Decidable (validState s) := by
  unfold validState
  infer_instance

/-! ## Cursor invariant and concrete example data -/

/-- The documented `SheetState` cursor invariant:
`0 <= cursor < len(data)`. -/
def cursorInv (s : State) : Prop :=
  0 ≤ s.cursor ∧ s.cursor < s.data.length

instance (s : State) : Decidable (cursorInv s) := by
  unfold cursorInv; infer_instance

/-- The documented `ColumnMapping` invariant: every column index that
`parse_csv_line` dereferences is valid for the row (Python indexing
succeeds). -/
def rowIndicesOK (ctn : List String) (m : CSVMapping) : Prop :=
  (∃ c, pyGet ctn m.debit = .ok c) ∧ (∃ c, pyGet ctn m.credit = .ok c) ∧
  (∀ p ∈ m.dates, ∃ c, pyGet ctn p.2 = .ok c) ∧
  (∀ p ∈ m.infos, ∃ c, pyGet ctn p.2 = .ok c)

/-- A column mapping used by the concrete examples: column 1 is a
date, column 2 an info, column 3 the debit, column 4 the credit. -/
def exMapping : CSVMapping := ⟨[("date", 1)], 0, [("info", 2)], 3, 4⟩

/-- An untagged line. -/
def exUntagged : CSVLine := { dfltLine with content := ["u"] }

/-- A line tagged `"t"`. -/
def exTagged : CSVLine := { dfltLine with content := ["t"], tag := some "t" }

/-- The three-row example of the specification: rows 0 and 2
untagged, row 1 tagged, cursor at 2. -/
def exState3 : State :=
  ⟨CURRENT_VERSION, 2, exMapping, [exUntagged, exTagged, exUntagged], []⟩

/-- A one-row state with a single untagged line. -/
def exState1 : State := ⟨CURRENT_VERSION, 0, exMapping, [exUntagged], []⟩

/-- A two-row state with two untagged lines. -/
def exState2 : State :=
  ⟨CURRENT_VERSION, 0, exMapping, [exUntagged, { dfltLine with content := ["v"] }], []⟩

/-- A state with no data rows. -/
def emptyState : State := ⟨CURRENT_VERSION, 0, exMapping, [], []⟩

/-- The aggregation example of the specification: one `"food"` row
with debit `12.5` and one untagged row with credit `5`. -/
def exStateSum : State :=
  ⟨CURRENT_VERSION, 0, exMapping,
   [{ dfltLine with tag := some "food", debit := 25/2, credit := 0 },
    { dfltLine with tag := none, debit := 0, credit := 5 }], []⟩

/-- A state exercising every serialized field: a parsed date, an
info, amounts, a tag, an unparsed header row. -/
def exStateFull : State :=
  ⟨"0.0.9", 1, exMapping,
   [{ content := ["a", "01/02/2024", "x", "7", "abc"],
      dates := [("date", ⟨2024, 2, 1⟩)], tag := none,
      infos := [("info", "x")], debit := 7, credit := 0 },
    { content := ["b", "2024-02-29", "y", "abc", "3"],
      dates := [("date", ⟨2024, 2, 29⟩)], tag := some "food",
      infos := [("info", "y")], debit := 0, credit := 3 }],
   [["header", "row"]]⟩

/-- The serialized form of `exStateFull` with one extra (unknown)
field appended: pydantic-style validation accepts it and silently
drops the extra field. -/
def exDocExtra : Json :=
  match stateToJson exStateFull with
  | .obj l => .obj (l ++ [("extra", Json.null)])
  | j => j

/-- A raw table whose second row holds the undated cell
`"31/02/2024"` in the mapped date column. -/
def exBadCSV : CSVFile :=
  ⟨[["header", "row", "x", "y", "z"],
    ["a", "31/02/2024", "x", "1", "2"]], 1⟩

/-- A raw table that parses cleanly from offset 1. -/
def exGoodCSV : CSVFile :=
  ⟨[["header", "row", "x", "y", "z"],
    ["a", "01/02/2024", "x", "abc", "5"]], 1⟩

/-! ## Helper lemmas -/

lemma pySliceFrom_nonneg (l : List α) {k : Int} (h : 0 ≤ k) :
    pySliceFrom l k = l.drop k.toNat := by
  unfold pySliceFrom
  rw [if_neg (by omega)]

lemma pySliceTo_nonneg (l : List α) {k : Int} (h : 0 ≤ k) :
    pySliceTo l k = l.take k.toNat := by
  unfold pySliceTo
  rw [if_neg (by omega)]

lemma findIdx?_some_spec (p : α → Bool) :
    ∀ {l : List α} {i : Nat}, l.findIdx? p = some i →
    ∃ hi : i < l.length, p (l.get ⟨i, hi⟩) = true ∧
      ∀ j (hj : j < l.length), j < i → p (l.get ⟨j, hj⟩) = false := by
  intro l
  induction l with
  | nil => intro i h; simp [List.findIdx?] at h
  | cons a t ih =>
    intro i h
    have hcons : List.findIdx? p (a :: t) =
        if p a then some 0 else (List.findIdx? p t).map (· + 1) := by
      simp [List.findIdx?_cons]
    rw [hcons] at h
    by_cases hpa : p a
    · rw [if_pos hpa] at h
      injection h with h0
      subst h0
      exact ⟨by simp, by simpa using hpa, fun j hj hj0 => absurd hj0 (by omega)⟩
    · rw [if_neg hpa, Option.map_eq_some'] at h
      obtain ⟨i', hi', rfl⟩ := h
      obtain ⟨hlt, hp, hbefore⟩ := ih hi'
      refine ⟨by simpa using Nat.succ_lt_succ hlt, by simpa using hp, ?_⟩
      intro j hj hj0
      match j with
      | 0 => simpa using hpa
      | j' + 1 => simpa using hbefore j' (by simpa using hj) (by omega)

lemma findIdx?_none_spec (p : α → Bool) {l : List α} (h : l.findIdx? p = none)
    {j : Nat} (hj : j < l.length) : p (l.get ⟨j, hj⟩) = false := by
  rw [List.findIdx?_eq_none_iff] at h
  exact h _ (l.get_mem _ _)

lemma next_tag_eq_drop (s : State) (h0 : 0 ≤ s.cursor) :
    next_tag s =
      match (s.data.drop (s.cursor.toNat + 1)).findIdx? (fun v => v.tag.isNone) with
      | some i => { s with cursor := 1 + i + s.cursor }
      | none => s := by
  have h1 : pySliceFrom s.data (s.cursor + 1) = s.data.drop (s.cursor.toNat + 1) := by
    rw [pySliceFrom_nonneg _ (by omega)]
    congr 1
    omega
  unfold next_tag
  rw [h1]

lemma prev_tag_eq_take (s : State) (h0 : 0 ≤ s.cursor) :
    prev_tag s =
      match (s.data.take s.cursor.toNat).reverse.findIdx? (fun v => v.tag.isNone) with
      | some i => { s with cursor := s.cursor - i - 1 }
      | none => s := by
  have h1 : pySliceTo s.data s.cursor = s.data.take s.cursor.toNat :=
    pySliceTo_nonneg _ h0
  unfold prev_tag
  rw [h1]

lemma next_tag_data (s : State) : (next_tag s).data = s.data := by
  unfold next_tag
  cases (pySliceFrom s.data (s.cursor + 1)).findIdx? (fun v => v.tag.isNone) <;> rfl

lemma prev_tag_data (s : State) : (prev_tag s).data = s.data := by
  unfold prev_tag
  cases (pySliceTo s.data s.cursor).reverse.findIdx? (fun v => v.tag.isNone) <;> rfl

lemma next_tag_cursor_mono (s : State) : s.cursor ≤ (next_tag s).cursor := by
  unfold next_tag
  cases (pySliceFrom s.data (s.cursor + 1)).findIdx? (fun v => v.tag.isNone) with
  | none => exact le_refl _
  | some i => simp only; omega

lemma next_tag_inv (s : State) (h : cursorInv s) : cursorInv (next_tag s) := by
  obtain ⟨h0, h1⟩ := h
  cases hf : (s.data.drop (s.cursor.toNat + 1)).findIdx? (fun v => v.tag.isNone) with
  | none =>
    rw [next_tag_eq_drop s h0, hf]
    exact ⟨h0, h1⟩
  | some i =>
    obtain ⟨hi, -, -⟩ := findIdx?_some_spec _ hf
    rw [List.length_drop] at hi
    rw [next_tag_eq_drop s h0, hf]
    dsimp only [cursorInv]
    constructor <;> omega

lemma prev_tag_inv (s : State) (h : cursorInv s) : cursorInv (prev_tag s) := by
  obtain ⟨h0, h1⟩ := h
  cases hf : (s.data.take s.cursor.toNat).reverse.findIdx? (fun v => v.tag.isNone) with
  | none =>
    rw [prev_tag_eq_take s h0, hf]
    exact ⟨h0, h1⟩
  | some i =>
    obtain ⟨hi, -, -⟩ := findIdx?_some_spec _ hf
    rw [List.length_reverse, List.length_take] at hi
    rw [prev_tag_eq_take s h0, hf]
    dsimp only [cursorInv]
    constructor <;> omega

lemma isNone_false_iff (o : Option α) : o.isNone = false ↔ o ≠ none := by
  cases o <;> simp

lemma get_idx_congr (l : List α) {i j : Nat} (h : i = j)
    (hi : i < l.length) (hj : j < l.length) :
    l.get ⟨i, hi⟩ = l.get ⟨j, hj⟩ := by
  subst h
  rfl

lemma get_drop_eq (l : List α) (k i : Nat) (hi : i < (l.drop k).length) :
    (l.drop k).get ⟨i, hi⟩ =
      l.get ⟨k + i, by rw [List.length_drop] at hi; omega⟩ := by
  simp [List.getElem_drop]

lemma get_take_reverse_eq (l : List α) (k i : Nat) (hk : k ≤ l.length)
    (hi : i < (l.take k).reverse.length) :
    (l.take k).reverse.get ⟨i, hi⟩ =
      l.get ⟨k - 1 - i,
        by rw [List.length_reverse, List.length_take] at hi; omega⟩ := by
  have hi' : i < k := by rw [List.length_reverse, List.length_take] at hi; omega
  simp only [List.get_eq_getElem, List.getElem_reverse, List.getElem_take]
  congr 1
  rw [List.length_take]
  omega

lemma next_tag_none_spec (s : State) (hinv : cursorInv s)
    (hall : ∀ j (hj : j < s.data.length), s.cursor < (j : Int) →
      (s.data.get ⟨j, hj⟩).tag ≠ none) :
    next_tag s = s := by
  obtain ⟨h0, h1⟩ := hinv
  have hn : (s.data.drop (s.cursor.toNat + 1)).findIdx? (fun v => v.tag.isNone)
      = none := by
    rw [List.findIdx?_eq_none_iff]
    intro x hx
    obtain ⟨⟨i, hi⟩, rfl⟩ := List.mem_iff_get.mp hx
    rw [get_drop_eq]
    simp only [isNone_false_iff]
    exact hall _ (by rw [List.length_drop] at hi; omega) (by omega)
  rw [next_tag_eq_drop s h0, hn]

lemma next_tag_found_spec (s : State) (hinv : cursorInv s)
    {j : Nat} (hj : j < s.data.length) (hgt : s.cursor < (j : Int))
    (htag : (s.data.get ⟨j, hj⟩).tag = none) :
    s.cursor < (next_tag s).cursor ∧
    ∃ hc : (next_tag s).cursor.toNat < s.data.length,
      (s.data.get ⟨(next_tag s).cursor.toNat, hc⟩).tag = none ∧
      ∀ k (hk : k < s.data.length), s.cursor < (k : Int) →
        (k : Int) < (next_tag s).cursor → (s.data.get ⟨k, hk⟩).tag ≠ none := by
  obtain ⟨h0, h1⟩ := hinv
  cases hf : (s.data.drop (s.cursor.toNat + 1)).findIdx? (fun v => v.tag.isNone) with
  | none =>
    exfalso
    have hjd : j - (s.cursor.toNat + 1) < (s.data.drop (s.cursor.toNat + 1)).length := by
      rw [List.length_drop]
      omega
    have hfalse := findIdx?_none_spec _ hf hjd
    rw [get_drop_eq] at hfalse
    simp only [isNone_false_iff] at hfalse
    exact hfalse (by rw [get_idx_congr s.data (show s.cursor.toNat + 1 +
      (j - (s.cursor.toNat + 1)) = j by omega) _ hj]; exact htag)
  | some i =>
    obtain ⟨hi, hp, hbefore⟩ := findIdx?_some_spec _ hf
    have hlen : i < s.data.length - (s.cursor.toNat + 1) := by
      rw [List.length_drop] at hi
      omega
    rw [next_tag_eq_drop s h0, hf]
    dsimp only
    refine ⟨by omega, ⟨by omega, ?_, ?_⟩⟩
    · rw [get_drop_eq] at hp
      simp only [Option.isNone_iff_eq_none] at hp
      rw [get_idx_congr s.data
        (show (1 + (i : Int) + s.cursor).toNat = s.cursor.toNat + 1 + i by omega)]
      exact hp
    · intro k hk hgtk hltk
      have hkd : k - (s.cursor.toNat + 1) < (s.data.drop (s.cursor.toNat + 1)).length := by
        rw [List.length_drop]
        omega
      have hfalse := hbefore (k - (s.cursor.toNat + 1)) hkd (by omega)
      rw [get_drop_eq] at hfalse
      simp only [isNone_false_iff] at hfalse
      intro hcon
      exact hfalse (by rw [get_idx_congr s.data (show s.cursor.toNat + 1 +
        (k - (s.cursor.toNat + 1)) = k by omega) _ hk]; exact hcon)

lemma prev_tag_none_spec (s : State) (hinv : cursorInv s)
    (hall : ∀ j (hj : j < s.data.length), (j : Int) < s.cursor →
      (s.data.get ⟨j, hj⟩).tag ≠ none) :
    prev_tag s = s := by
  obtain ⟨h0, h1⟩ := hinv
  have hcle : s.cursor.toNat ≤ s.data.length := by omega
  have hn : (s.data.take s.cursor.toNat).reverse.findIdx? (fun v => v.tag.isNone)
      = none := by
    rw [List.findIdx?_eq_none_iff]
    intro x hx
    obtain ⟨⟨i, hi⟩, rfl⟩ := List.mem_iff_get.mp hx
    have hi' : i < s.cursor.toNat := by
      rw [List.length_reverse, List.length_take] at hi
      omega
    rw [get_take_reverse_eq s.data _ _ hcle]
    simp only [isNone_false_iff]
    exact hall _ (by omega) (by omega)
  rw [prev_tag_eq_take s h0, hn]

lemma prev_tag_found_spec (s : State) (hinv : cursorInv s)
    {j : Nat} (hj : j < s.data.length) (hlt : (j : Int) < s.cursor)
    (htag : (s.data.get ⟨j, hj⟩).tag = none) :
    (prev_tag s).cursor < s.cursor ∧ 0 ≤ (prev_tag s).cursor ∧
    ∃ hc : (prev_tag s).cursor.toNat < s.data.length,
      (s.data.get ⟨(prev_tag s).cursor.toNat, hc⟩).tag = none ∧
      ∀ k (hk : k < s.data.length), (prev_tag s).cursor < (k : Int) →
        (k : Int) < s.cursor → (s.data.get ⟨k, hk⟩).tag ≠ none := by
  obtain ⟨h0, h1⟩ := hinv
  have hcle : s.cursor.toNat ≤ s.data.length := by omega
  have hrevlen : (s.data.take s.cursor.toNat).reverse.length = s.cursor.toNat := by
    rw [List.length_reverse, List.length_take]
    omega
  cases hf : (s.data.take s.cursor.toNat).reverse.findIdx? (fun v => v.tag.isNone) with
  | none =>
    exfalso
    have hjd : s.cursor.toNat - 1 - j < (s.data.take s.cursor.toNat).reverse.length := by
      rw [hrevlen]
      omega
    have hfalse := findIdx?_none_spec _ hf hjd
    rw [get_take_reverse_eq s.data _ _ hcle] at hfalse
    simp only [isNone_false_iff] at hfalse
    exact hfalse (by rw [get_idx_congr s.data (show s.cursor.toNat - 1 -
      (s.cursor.toNat - 1 - j) = j by omega) _ hj]; exact htag)
  | some i =>
    obtain ⟨hi, hp, hbefore⟩ := findIdx?_some_spec _ hf
    have hlen : i < s.cursor.toNat := by rw [hrevlen] at hi; omega
    rw [prev_tag_eq_take s h0, hf]
    dsimp only
    refine ⟨by omega, by omega, ⟨by omega, ?_, ?_⟩⟩
    · rw [get_take_reverse_eq s.data _ _ hcle] at hp
      simp only [Option.isNone_iff_eq_none] at hp
      rw [get_idx_congr s.data
        (show (s.cursor - (i : Int) - 1).toNat = s.cursor.toNat - 1 - i by omega)]
      exact hp
    · intro k hk hgtk hltk
      have hkd : s.cursor.toNat - 1 - k < (s.data.take s.cursor.toNat).reverse.length := by
        rw [hrevlen]
        omega
      have hfalse := hbefore (s.cursor.toNat - 1 - k) hkd (by omega)
      rw [get_take_reverse_eq s.data _ _ hcle] at hfalse
      simp only [isNone_false_iff] at hfalse
      intro hcon
      exact hfalse (by rw [get_idx_congr s.data (show s.cursor.toNat - 1 -
        (s.cursor.toNat - 1 - k) = k by omega) _ hk]; exact hcon)

lemma pyNormIndex_inv {len : Nat} {i : Int} (h0 : 0 ≤ i) (h1 : i < (len : Int)) :
    pyNormIndex len i = some i.toNat := by
  unfold pyNormIndex
  dsimp only
  rw [show (if i < 0 then i + (len : Int) else i) = i from if_neg (by omega),
    if_pos ⟨h0, h1⟩]

lemma update_tag_eq (name : String) (s : State) (hinv : cursorInv s) :
    update_tag name s =
      .ok (next_tag
        { s with
          data := s.data.set s.cursor.toNat
            { s.data.getD s.cursor.toNat dfltLine with tag := some name } }) := by
  unfold update_tag
  rw [pyNormIndex_inv hinv.1 hinv.2]

/-- **C10.** When `data` is empty, `next_line` and `prev_line` compute the new
cursor modulo `len(data)`, a modulo by zero that raises an uncaught
`ZeroDivisionError`; when `data` is non-empty both operations always
succeed. -/
theorem next_prev_line_empty_undefined (s : State) :
    (s.data = [] →
      next_line s = .error .zeroDivisionError ∧
      prev_line s = .error .zeroDivisionError) ∧
    (s.data ≠ [] →
      (∃ s₁, next_line s = .ok s₁) ∧ ∃ s₂, prev_line s = .ok s₂) := by
  constructor
  · intro h
    constructor <;> simp [next_line, prev_line, h]
  · intro h
    have hne : s.data.length ≠ 0 := by
      simpa [List.length_eq_zero] using h
    constructor
    · exact ⟨_, by unfold next_line; rw [if_neg hne]⟩
    · exact ⟨_, by unfold prev_line; rw [if_neg hne]⟩

/-- Witness for C10: at the state with empty `data`, both operations raise
`ZeroDivisionError`. -/
theorem next_prev_line_empty_undefined_witness :
    next_line emptyState = .error .zeroDivisionError ∧
    prev_line emptyState = .error .zeroDivisionError :=
  (next_prev_line_empty_undefined emptyState).1 rfl

/-- **C6.** The cursor invariant `0 ≤ cursor < len(data)` (which forces
`data` to be non-empty) is preserved by every navigation and tagging
operation: `next_line`, `prev_line`, `next_untagged` (`next_tag`),
`prev_untagged` (`prev_tag`) and `assign_tag` (`update_tag`) with any
tag name. -/
theorem cursor_invariant_preserved (s : State) (hinv : cursorInv s) :
    (∃ s₁, next_line s = .ok s₁ ∧ cursorInv s₁) ∧
    (∃ s₁, prev_line s = .ok s₁ ∧ cursorInv s₁) ∧
    cursorInv (next_tag s) ∧ cursorInv (prev_tag s) ∧
    ∀ name, ∃ s₁, update_tag name s = .ok s₁ ∧ cursorInv s₁ := by
  obtain ⟨h0, h1⟩ := hinv
  have hne : s.data.length ≠ 0 := by omega
  have hpos : (0 : Int) < (s.data.length : Int) := by omega
  refine ⟨⟨_, by unfold next_line; rw [if_neg hne], ?_, ?_⟩,
          ⟨_, by unfold prev_line; rw [if_neg hne], ?_, ?_⟩,
          next_tag_inv s ⟨h0, h1⟩, prev_tag_inv s ⟨h0, h1⟩, ?_⟩
  · exact Int.emod_nonneg _ (by omega)
  · exact Int.emod_lt_of_pos _ hpos
  · exact Int.emod_nonneg _ (by omega)
  · exact Int.emod_lt_of_pos _ hpos
  · intro name
    refine ⟨_, update_tag_eq name s ⟨h0, h1⟩, next_tag_inv _ ?_⟩
    exact ⟨h0, by simpa [List.length_set] using h1⟩

/-- Witness for C6 at the three-row example state. -/
theorem cursor_invariant_preserved_witness :
    cursorInv (next_tag exState3) ∧
    ∃ s₁, update_tag "food" exState3 = .ok s₁ ∧ cursorInv s₁ :=
  ⟨(cursor_invariant_preserved exState3 (by decide)).2.2.1,
   (cursor_invariant_preserved exState3 (by decide)).2.2.2.2 "food"⟩

/-- **C5.** `next_untagged` (`next_tag`) scans strictly after the current
cursor and `prev_untagged` (`prev_tag`) strictly before it for the nearest
line whose tag is unset and moves the cursor there; if no such line exists in
that direction the state (in particular the cursor) is unchanged — the scan
never wraps around.  `data` itself is never modified. -/
theorem untagged_scan_no_wraparound (s : State) (hinv : cursorInv s) :
    (next_tag s).data = s.data ∧ (prev_tag s).data = s.data ∧
    (∀ j (hj : j < s.data.length), s.cursor < (j : Int) →
        (s.data.get ⟨j, hj⟩).tag = none →
      s.cursor < (next_tag s).cursor ∧
      ∃ hc : (next_tag s).cursor.toNat < s.data.length,
        (s.data.get ⟨(next_tag s).cursor.toNat, hc⟩).tag = none ∧
        ∀ k (hk : k < s.data.length), s.cursor < (k : Int) →
          (k : Int) < (next_tag s).cursor → (s.data.get ⟨k, hk⟩).tag ≠ none) ∧
    ((∀ j (hj : j < s.data.length), s.cursor < (j : Int) →
        (s.data.get ⟨j, hj⟩).tag ≠ none) → next_tag s = s) ∧
    (∀ j (hj : j < s.data.length), (j : Int) < s.cursor →
        (s.data.get ⟨j, hj⟩).tag = none →
      (prev_tag s).cursor < s.cursor ∧ 0 ≤ (prev_tag s).cursor ∧
      ∃ hc : (prev_tag s).cursor.toNat < s.data.length,
        (s.data.get ⟨(prev_tag s).cursor.toNat, hc⟩).tag = none ∧
        ∀ k (hk : k < s.data.length), (prev_tag s).cursor < (k : Int) →
          (k : Int) < s.cursor → (s.data.get ⟨k, hk⟩).tag ≠ none) ∧
    ((∀ j (hj : j < s.data.length), (j : Int) < s.cursor →
        (s.data.get ⟨j, hj⟩).tag ≠ none) → prev_tag s = s) :=
  ⟨next_tag_data s, prev_tag_data s,
   fun _ hj h1 h2 => next_tag_found_spec s hinv hj h1 h2,
   next_tag_none_spec s hinv,
   fun _ hj h1 h2 => prev_tag_found_spec s hinv hj h1 h2,
   prev_tag_none_spec s hinv⟩

/-- Witness for C5: in the three-row example (rows 0 and 2 untagged, row 1
tagged, cursor at 2) `next_untagged` leaves the state — hence the cursor at
2 — unchanged. -/
theorem untagged_scan_no_wraparound_witness : next_tag exState3 = exState3 :=
  (untagged_scan_no_wraparound exState3 (by decide)).2.2.2.1
    (fun j hj hgt => by
      exfalso
      have h3 : exState3.data.length = 3 := rfl
      have h2 : exState3.cursor = 2 := rfl
      rw [h3] at hj
      rw [h2] at hgt
      omega)

/-- **C1 counterexample.** The claim says every command string other than
`"q"`/`"quit"` and the four navigation symbols runs `assign_tag`; but `"?"`
is dispatched to `show_help`, which leaves the state unchanged, and differs
from what `assign_tag("?")` would produce on a one-row untagged state. -/
theorem apply_action_question_not_assign :
    apply_action exState1 "?" = .ok exState1 ∧
    update_tag "?" exState1 ≠ apply_action exState1 "?" := by
  decide

/-- **C1 (amended).** `apply_action` dispatches `"<"` to `prev_line`, `">"`
and the empty string to `next_line`, `"«"` to `prev_untagged`, `"»"` to
`next_untagged`, `"?"` to `show_help` (which only prints, leaving the state
unchanged), and any other literal string — `"q"`/`"quit"` never reach the
dispatch — to `assign_tag` with that string as the tag name. -/
theorem apply_action_dispatch (s : State) (cmd : String) :
    apply_action s "<" = prev_line s ∧
    apply_action s ">" = next_line s ∧
    apply_action s "" = next_line s ∧
    apply_action s "«" = .ok (prev_tag s) ∧
    apply_action s "»" = .ok (next_tag s) ∧
    apply_action s "?" = .ok s ∧
    (cmd ∉ ["<", ">", "", "«", "»", "?", "q", "quit"] →
      apply_action s cmd = update_tag cmd s) := by
  refine ⟨rfl, rfl, rfl, rfl, rfl, rfl, ?_⟩
  intro h
  simp only [List.mem_cons, not_or] at h
  obtain ⟨h1, h2, h3, h4, h5, h6, -⟩ := h
  unfold apply_action
  rw [if_neg h1, if_neg h2, if_neg h3, if_neg h4, if_neg h5, if_neg h6]

/-- Witness for C1: the command `"food"` is dispatched to
`assign_tag("food")`. -/
theorem apply_action_dispatch_witness :
    apply_action exState1 "food" = update_tag "food" exState1 :=
  (apply_action_dispatch exState1 "food").2.2.2.2.2.2 (by decide)

/-- **C9.** `assign_tag(name)` is idempotent on the tag field: calling
`update_tag name` twice in a row from any valid state leaves the tag of the
originally current row equal to `name` (the cursor may have moved in
between, because each call re-runs `next_untagged`). -/
theorem assign_tag_idempotent_on_tag (s : State) (name : String)
    (hinv : cursorInv s) :
    ∃ s₁ s₂, update_tag name s = .ok s₁ ∧ update_tag name s₁ = .ok s₂ ∧
      ∃ hc : s.cursor.toNat < s₂.data.length,
        (s₂.data.get ⟨s.cursor.toNat, hc⟩).tag = some name := by
  obtain ⟨h0, h1⟩ := hinv
  have hr : s.cursor.toNat < s.data.length := by omega
  set lineA := { s.data.getD s.cursor.toNat dfltLine with tag := some name }
    with hlA
  set sA := { s with data := s.data.set s.cursor.toNat lineA } with hsA
  have hinvA : cursorInv sA :=
    ⟨h0, by simpa [hsA, List.length_set] using h1⟩
  set s₁ := next_tag sA with hs1
  have hdata1 : s₁.data = s.data.set s.cursor.toNat lineA := by
    rw [hs1, next_tag_data, hsA]
  have hlen1 : s₁.data.length = s.data.length := by
    rw [hdata1, List.length_set]
  have hinv1 : cursorInv s₁ := next_tag_inv sA hinvA
  have htag1 : ∀ hc : s.cursor.toNat < s₁.data.length,
      (s₁.data.get ⟨s.cursor.toNat, hc⟩).tag = some name := by
    intro hc
    rw [List.get_of_eq hdata1]
    simp [List.get_eq_getElem, List.getElem_set_self, hlA]
  set lineB := { s₁.data.getD s₁.cursor.toNat dfltLine with tag := some name }
    with hlB
  set sB := { s₁ with data := s₁.data.set s₁.cursor.toNat lineB } with hsB
  set s₂ := next_tag sB with hs2
  have hdata2 : s₂.data = s₁.data.set s₁.cursor.toNat lineB := by
    rw [hs2, next_tag_data, hsB]
  have hlen2 : s₂.data.length = s₁.data.length := by
    rw [hdata2, List.length_set]
  have hc : s.cursor.toNat < s₂.data.length := by omega
  refine ⟨s₁, s₂, update_tag_eq name s ⟨h0, h1⟩, update_tag_eq name s₁ hinv1, hc, ?_⟩
  rw [List.get_of_eq hdata2]
  by_cases heq : s₁.cursor.toNat = s.cursor.toNat
  · rw [get_idx_congr _ (heq.symm) _ (by rw [List.length_set]; omega)]
    have : (s₁.data.set s₁.cursor.toNat lineB).get
        ⟨s₁.cursor.toNat, by rw [List.length_set]; omega⟩ = lineB := by
      simp [List.get_eq_getElem, List.getElem_set_self]
    rw [this, hlB]
  · have hb : s.cursor.toNat < s₁.data.length := by omega
    have : (s₁.data.set s₁.cursor.toNat lineB).get
        ⟨s.cursor.toNat, by rw [List.length_set]; omega⟩ =
        s₁.data.get ⟨s.cursor.toNat, hb⟩ := by
      simp [List.get_eq_getElem, List.getElem_set_ne (fun hx => heq hx)]
    rw [this]
    exact htag1 hb

/-- Witness for C9 at the two-row untagged example state. -/
theorem assign_tag_idempotent_on_tag_witness :
    ∃ s₁ s₂, update_tag "food" exState2 = .ok s₁ ∧
      update_tag "food" s₁ = .ok s₂ ∧
      ∃ hc : exState2.cursor.toNat < s₂.data.length,
        (s₂.data.get ⟨exState2.cursor.toNat, hc⟩).tag = some "food" :=
  assign_tag_idempotent_on_tag exState2 "food" (by decide)

lemma except_ok_bind (a : α) (g : α → Except ε β) :
    (Except.ok a >>= g : Except ε β) = g a := rfl

lemma except_error_bind (e : ε) (g : α → Except ε β) :
    (Except.error e >>= g : Except ε β) = Except.error e := rfl

lemma except_pure_eq (a : α) : (pure a : Except ε α) = Except.ok a := rfl

lemma mapExcept_ok_of_forall {f : α → Except ε β} {l : List α}
    (h : ∀ a ∈ l, ∃ b, f a = .ok b) : ∃ bs, mapExcept f l = .ok bs := by
  induction l with
  | nil => exact ⟨[], rfl⟩
  | cons a t ih =>
    obtain ⟨b, hb⟩ := h a (List.mem_cons_self a t)
    obtain ⟨bs, hbs⟩ := ih (fun x hx => h x (List.mem_cons_of_mem a hx))
    refine ⟨b :: bs, ?_⟩
    simp only [mapExcept, hb, except_ok_bind, hbs, except_pure_eq]

lemma mapExcept_error_elim {f : α → Except ε β} :
    ∀ {l : List α} {e : ε}, mapExcept f l = .error e →
      ∃ a ∈ l, f a = .error e := by
  intro l
  induction l with
  | nil =>
    intro e he
    cases he
  | cons x t ih =>
    intro e he
    cases hx : f x with
    | error e' =>
      rw [show mapExcept f (x :: t) = .error e' by
        simp only [mapExcept, hx, except_error_bind]] at he
      cases he
      exact ⟨x, List.mem_cons_self x t, hx⟩
    | ok b =>
      rw [show mapExcept f (x :: t) =
          (mapExcept f t >>= fun bs => pure (b :: bs)) by
        simp only [mapExcept, hx, except_ok_bind]] at he
      cases ht : mapExcept f t with
      | ok bs =>
        rw [ht, except_ok_bind, except_pure_eq] at he
        cases he
      | error e' =>
        rw [ht, except_error_bind] at he
        cases he
        obtain ⟨a, ha, hfa⟩ := ih ht
        exact ⟨a, List.mem_cons_of_mem x ha, hfa⟩

lemma mapExcept_error_of_mem {f : α → Except PyError β} :
    ∀ {l : List α} {a : α}, a ∈ l → f a = .error .valueError →
      (∀ x ∈ l, (∃ b, f x = .ok b) ∨ f x = .error .valueError) →
      mapExcept f l = .error .valueError := by
  intro l
  induction l with
  | nil =>
    intro a ha _ _
    cases ha
  | cons x t ih =>
    intro a ha hfa h
    cases hx : f x with
    | error e' =>
      have he' : e' = .valueError := by
        rcases h x (List.mem_cons_self x t) with ⟨b, hb⟩ | hvx
        · rw [hx] at hb
          cases hb
        · rw [hx] at hvx
          injection hvx
      subst he'
      simp only [mapExcept, hx, except_error_bind]
    | ok b =>
      have hat : a ∈ t := by
        rcases List.mem_cons.mp ha with rfl | hat
        · rw [hx] at hfa
          cases hfa
        · exact hat
      have ht := ih hat hfa (fun y hy => h y (List.mem_cons_of_mem x hy))
      simp only [mapExcept, hx, except_ok_bind, ht, except_error_bind]

lemma best_effort_cases (s : String) :
    (∃ d, best_effort_date_parsing s = .ok d) ∨
      best_effort_date_parsing s = .error .valueError := by
  unfold best_effort_date_parsing
  cases parseDMYslash s with
  | some d => exact .inl ⟨d, rfl⟩
  | none =>
    cases parseYMDdash s with
    | some d => exact .inl ⟨d, rfl⟩
    | none =>
      cases parseYMDslash s with
      | some d => exact .inl ⟨d, rfl⟩
      | none => exact .inr rfl

lemma parse_csv_line_ok (ctn : List String) (m : CSVMapping)
    {dCell cCell : String}
    (hd : pyGet ctn m.debit = .ok dCell)
    (hc : pyGet ctn m.credit = .ok cCell)
    (hdates : ∀ p ∈ m.dates, ∃ cell date, pyGet ctn p.2 = .ok cell ∧
      best_effort_date_parsing cell = .ok date)
    (hinfos : ∀ p ∈ m.infos, ∃ cell, pyGet ctn p.2 = .ok cell) :
    ∃ line, parse_csv_line ctn m = .ok line ∧
      line.debit = ((pyFloat dCell).getD 0 : ℚ) ∧
      line.credit = ((pyFloat cCell).getD 0 : ℚ) ∧ line.tag = none ∧
      line.content = ctn := by
  obtain ⟨ds, hds⟩ := mapExcept_ok_of_forall (f := dateField ctn) (l := m.dates)
    (by
      intro p hp
      obtain ⟨cell, date, hcell, hdate⟩ := hdates p hp
      exact ⟨(p.1, date), by
        simp only [dateField, hcell, except_ok_bind, hdate, except_pure_eq]⟩)
  obtain ⟨is, his⟩ := mapExcept_ok_of_forall (f := infoField ctn) (l := m.infos)
    (by
      intro p hp
      obtain ⟨cell, hcell⟩ := hinfos p hp
      exact ⟨(p.1, cell), by
        simp only [infoField, hcell, except_ok_bind, except_pure_eq]⟩)
  have heq : parse_csv_line ctn m = .ok
      { content := ctn, dates := ds, tag := none, infos := is,
        debit := (pyFloat dCell).getD 0, credit := (pyFloat cCell).getD 0 } := by
    unfold parse_csv_line
    simp only [hd, except_ok_bind, hc, hds, his, except_pure_eq]
  exact ⟨_, heq, rfl, rfl, rfl, rfl⟩

/-- **C8.** When the debit or credit cell of a row is not a parseable
number, line construction still succeeds (provided the row is otherwise
well-formed: valid column indices and parseable date cells) and the
unparseable amount is silently replaced by `0` — the numeric parse failure
is never surfaced as an error. -/
theorem numeric_parse_failure_silent_zero (ctn : List String) (m : CSVMapping)
    {dCell cCell : String}
    (hd : pyGet ctn m.debit = .ok dCell)
    (hc : pyGet ctn m.credit = .ok cCell)
    (hdates : ∀ p ∈ m.dates, ∃ cell date, pyGet ctn p.2 = .ok cell ∧
      best_effort_date_parsing cell = .ok date)
    (hinfos : ∀ p ∈ m.infos, ∃ cell, pyGet ctn p.2 = .ok cell) :
    ∃ line, parse_csv_line ctn m = .ok line ∧
      (pyFloat dCell = none → line.debit = 0) ∧
      (pyFloat cCell = none → line.credit = 0) := by
  obtain ⟨line, hline, hdeb, hcred, -, -⟩ :=
    parse_csv_line_ok ctn m hd hc hdates hinfos
  refine ⟨line, hline, ?_, ?_⟩
  · intro hnone
    rw [hdeb, hnone]
    rfl
  · intro hnone
    rw [hcred, hnone]
    rfl

/-- Witness for C8: the row `["a", "01/02/2024", "x", "abc", "5"]` has the
unparseable debit cell `"abc"`; the constructed line has debit `0`. -/
theorem numeric_parse_failure_silent_zero_witness :
    ∃ line, parse_csv_line ["a", "01/02/2024", "x", "abc", "5"] exMapping
        = .ok line ∧
      (pyFloat "abc" = none → line.debit = 0) ∧
      (pyFloat "5" = none → line.credit = 0) :=
  numeric_parse_failure_silent_zero ["a", "01/02/2024", "x", "abc", "5"]
    exMapping (by decide) (by decide)
    (by
      intro p hp
      have hp' : p = ("date", 1) := by
        simpa [exMapping] using hp
      subst hp'
      exact ⟨"01/02/2024", ⟨2024, 2, 1⟩, by decide, by decide⟩)
    (by
      intro p hp
      have hp' : p = ("info", 2) := by
        simpa [exMapping] using hp
      subst hp'
      exact ⟨"x", by decide⟩)

lemma dateField_cases (ctn : List String) (p : String × Int)
    {cell : String} (hcell : pyGet ctn p.2 = .ok cell) :
    (∃ d, best_effort_date_parsing cell = .ok d ∧
      dateField ctn p = .ok (p.1, d)) ∨
    (best_effort_date_parsing cell = .error .valueError ∧
      dateField ctn p = .error .valueError) := by
  rcases best_effort_cases cell with ⟨d, hbd⟩ | hbd
  · exact .inl ⟨d, hbd, by
      simp only [dateField, hcell, except_ok_bind, hbd, except_pure_eq]⟩
  · exact .inr ⟨hbd, by
      simp only [dateField, hcell, except_ok_bind, hbd, except_error_bind]⟩

lemma parse_csv_line_cases (ctn : List String) (m : CSVMapping)
    (hrow : rowIndicesOK ctn m) :
    (parse_csv_line ctn m = .error .valueError ↔
      ∃ p ∈ m.dates, ∃ cell, pyGet ctn p.2 = .ok cell ∧
        best_effort_date_parsing cell = .error .valueError) ∧
    (∀ e, parse_csv_line ctn m = .error e → e = .valueError) := by
  obtain ⟨⟨dCell, hd⟩, ⟨cCell, hc⟩, hdix, hiix⟩ := hrow
  have hfd_elem : ∀ p ∈ m.dates,
      (∃ b, dateField ctn p = .ok b) ∨ dateField ctn p = .error .valueError := by
    intro p hp
    obtain ⟨cell, hcell⟩ := hdix p hp
    rcases dateField_cases ctn p hcell with ⟨d, -, hok⟩ | ⟨-, herr⟩
    · exact .inl ⟨_, hok⟩
    · exact .inr herr
  obtain ⟨is, his⟩ := mapExcept_ok_of_forall (f := infoField ctn) (l := m.infos)
    (by
      intro p hp
      obtain ⟨cell, hcell⟩ := hiix p hp
      exact ⟨(p.1, cell), by
        simp only [infoField, hcell, except_ok_bind, except_pure_eq]⟩)
  have hred : parse_csv_line ctn m =
      (mapExcept (dateField ctn) m.dates >>= fun dates =>
        pure { content := ctn, dates := dates, tag := none, infos := is,
               debit := ((pyFloat dCell).getD 0 : ℚ),
               credit := ((pyFloat cCell).getD 0 : ℚ) } : Except PyError CSVLine) := by
    unfold parse_csv_line
    simp only [hd, except_ok_bind, hc]
    cases hmd : mapExcept (dateField ctn) m.dates with
    | ok ds => simp only [except_ok_bind, his, except_pure_eq]
    | error e => simp only [except_error_bind]
  constructor
  · constructor
    · intro he
      rw [hred] at he
      cases hmd : mapExcept (dateField ctn) m.dates with
      | ok ds =>
        rw [hmd, except_ok_bind, except_pure_eq] at he
        cases he
      | error e =>
        rw [hmd, except_error_bind] at he
        cases he
        obtain ⟨p, hp, hpe⟩ := mapExcept_error_elim hmd
        obtain ⟨cell, hcell⟩ := hdix p hp
        rcases dateField_cases ctn p hcell with ⟨d, -, hok⟩ | ⟨hbad, -⟩
        · rw [hok] at hpe
          cases hpe
        · exact ⟨p, hp, cell, hcell, hbad⟩
    · rintro ⟨p, hp, cell, hcell, hbad⟩
      have hpe : dateField ctn p = .error .valueError := by
        rcases dateField_cases ctn p hcell with ⟨d, hbd, -⟩ | ⟨-, herr⟩
        · rw [hbd] at hbad
          cases hbad
        · exact herr
      have hmd := mapExcept_error_of_mem hp hpe hfd_elem
      rw [hred, hmd, except_error_bind]
  · intro e he
    rw [hred] at he
    cases hmd : mapExcept (dateField ctn) m.dates with
    | ok ds =>
      rw [hmd, except_ok_bind, except_pure_eq] at he
      cases he
    | error e' =>
      rw [hmd, except_error_bind] at he
      cases he
      obtain ⟨p, hp, hpe⟩ := mapExcept_error_elim hmd
      rcases hfd_elem p hp with ⟨b, hok⟩ | herr
      · rw [hok] at hpe
        cases hpe
      · rw [herr] at hpe
        injection hpe with hpe'
        exact hpe'.symm

/-- **C7.** Under the documented mapping invariant (all mapped column
indices valid for every data row), `upgrade_csv` fails — with the
`ValueError` of the date parser (`DateParseError`) and with no partially
built state, since nothing is returned — if and only if some row at or
after the start offset has, in a mapped date column, a cell that none of
the three date formats parses; on success the fresh state has `cursor = 0`,
`version = CURRENT_VERSION`, the given mapping, and the rows before the
start offset copied verbatim into `unparsed`. -/
theorem upgrade_csv_date_failure_iff (c : CSVFile) (m : CSVMapping)
    (hidx : ∀ row ∈ pySliceFrom c.content c.start, rowIndicesOK row m) :
    (upgrade_csv c m = .error .valueError ↔
      ∃ row ∈ pySliceFrom c.content c.start, ∃ p ∈ m.dates, ∃ cell,
        pyGet row p.2 = .ok cell ∧
        best_effort_date_parsing cell = .error .valueError) ∧
    (∀ e, upgrade_csv c m = .error e → e = .valueError) ∧
    (∀ st, upgrade_csv c m = .ok st →
      st.cursor = 0 ∧ st.version = CURRENT_VERSION ∧ st.mapping = m ∧
      st.unparsed = pySliceTo c.content c.start) := by
  have helem : ∀ row ∈ pySliceFrom c.content c.start,
      (∃ b, parse_csv_line row m = .ok b) ∨
        parse_csv_line row m = .error .valueError := by
    intro row hr
    by_cases hbad : ∃ p ∈ m.dates, ∃ cell, pyGet row p.2 = .ok cell ∧
        best_effort_date_parsing cell = .error .valueError
    · exact .inr ((parse_csv_line_cases row m (hidx row hr)).1.mpr hbad)
    · obtain ⟨⟨dC, hd⟩, ⟨cC, hc⟩, hdix, hiix⟩ := hidx row hr
      obtain ⟨line, hline, -⟩ := parse_csv_line_ok row m hd hc
        (by
          intro p hp
          obtain ⟨cell, hcell⟩ := hdix p hp
          rcases best_effort_cases cell with ⟨d, hbd⟩ | hbd
          · exact ⟨cell, d, hcell, hbd⟩
          · exact absurd ⟨p, hp, cell, hcell, hbd⟩ hbad)
        hiix
      exact .inl ⟨line, hline⟩
  refine ⟨⟨?_, ?_⟩, ?_, ?_⟩
  · intro he
    unfold upgrade_csv at he
    cases hmd : mapExcept (fun line => parse_csv_line line m)
        (pySliceFrom c.content c.start) with
    | ok ds =>
      rw [hmd, except_ok_bind, except_pure_eq] at he
      cases he
    | error e =>
      rw [hmd, except_error_bind] at he
      cases he
      obtain ⟨row, hr, hrow⟩ := mapExcept_error_elim hmd
      obtain ⟨p, hp, hcellbad⟩ := (parse_csv_line_cases row m (hidx row hr)).1.mp hrow
      exact ⟨row, hr, p, hp, hcellbad⟩
  · rintro ⟨row, hr, hbad⟩
    have hrow : parse_csv_line row m = .error .valueError :=
      (parse_csv_line_cases row m (hidx row hr)).1.mpr hbad
    have hmd := mapExcept_error_of_mem hr hrow helem
    unfold upgrade_csv
    rw [hmd, except_error_bind]
  · intro e he
    unfold upgrade_csv at he
    cases hmd : mapExcept (fun line => parse_csv_line line m)
        (pySliceFrom c.content c.start) with
    | ok ds =>
      rw [hmd, except_ok_bind, except_pure_eq] at he
      cases he
    | error e' =>
      rw [hmd, except_error_bind] at he
      cases he
      obtain ⟨row, hr, hrow⟩ := mapExcept_error_elim hmd
      exact (parse_csv_line_cases row m (hidx row hr)).2 _ hrow
  · intro st hst
    unfold upgrade_csv at hst
    cases hmd : mapExcept (fun line => parse_csv_line line m)
        (pySliceFrom c.content c.start) with
    | ok ds =>
      rw [hmd, except_ok_bind, except_pure_eq] at hst
      cases hst
      exact ⟨rfl, rfl, rfl, rfl⟩
    | error e =>
      rw [hmd, except_error_bind] at hst
      cases hst

/-- Witness for C7: the table whose data row carries the date cell
`"31/02/2024"` (invalid under all three formats) makes `upgrade_csv` fail
with the date parser's `ValueError`. -/
theorem upgrade_csv_date_failure_iff_witness :
    upgrade_csv exBadCSV exMapping = .error .valueError := by
  have hslice : pySliceFrom exBadCSV.content exBadCSV.start =
      [["a", "31/02/2024", "x", "1", "2"]] := by decide
  have hidx : ∀ row ∈ pySliceFrom exBadCSV.content exBadCSV.start,
      rowIndicesOK row exMapping := by
    intro row hr
    rw [hslice] at hr
    have hrow : row = ["a", "31/02/2024", "x", "1", "2"] :=
      List.mem_singleton.mp hr
    subst hrow
    refine ⟨⟨"1", by decide⟩, ⟨"2", by decide⟩, ?_, ?_⟩
    · intro p hp
      have hp' : p = ("date", 1) := by simpa [exMapping] using hp
      subst hp'
      exact ⟨"31/02/2024", by decide⟩
    · intro p hp
      have hp' : p = ("info", 2) := by simpa [exMapping] using hp
      subst hp'
      exact ⟨"x", by decide⟩
  exact (upgrade_csv_date_failure_iff exBadCSV exMapping hidx).1.mpr
    ⟨["a", "31/02/2024", "x", "1", "2"], by rw [hslice]; exact List.mem_singleton.mpr rfl,
     ("date", 1), by simp [exMapping], "31/02/2024", by decide, by decide⟩

lemma dictFind?_map_set_self (d : List (String × α)) (k : String) (v : α) :
    (d.map (fun p => if p.1 == k then (k, v) else p)).find? (fun p => p.1 == k) =
      if d.any (fun p => p.1 == k) then some (k, v) else none := by
  induction d with
  | nil => simp
  | cons p t ih =>
    cases hb : (p.1 == k) with
    | true =>
      rw [List.map_cons, if_pos hb, List.find?_cons_of_pos _ (by simp),
        List.any_cons, hb, Bool.true_or, if_pos rfl]
    | false =>
      rw [List.map_cons, if_neg (by simp [hb]),
        List.find?_cons_of_neg _ (by simp [hb]), List.any_cons, hb,
        Bool.false_or, ih]

lemma dictFind?_map_set_ne (d : List (String × α)) {k k' : String} (v : α)
    (hne : k' ≠ k) :
    (d.map (fun p => if p.1 == k then (k, v) else p)).find? (fun p => p.1 == k') =
      d.find? (fun p => p.1 == k') := by
  induction d with
  | nil => simp
  | cons p t ih =>
    cases hb : (p.1 == k) with
    | true =>
      have hp1 : p.1 = k := by simpa using hb
      rw [List.map_cons, if_pos hb,
        List.find?_cons_of_neg _ (by simp [Ne.symm hne]),
        List.find?_cons_of_neg _ (by simp [hp1, Ne.symm hne]), ih]
    | false =>
      rw [List.map_cons, if_neg (by simp [hb])]
      cases hb' : (p.1 == k') with
      | true =>
        rw [List.find?_cons_of_pos _ (by simp [hb']),
          List.find?_cons_of_pos _ (by simp [hb'])]
      | false =>
        rw [List.find?_cons_of_neg _ (by simp [hb']),
          List.find?_cons_of_neg _ (by simp [hb']), ih]

lemma dictFind?_set_self (d : List (String × α)) (k : String) (v : α) :
    dictGet (dictSet d k v) k v = v ∧
    (dictSet d k v).find? (fun p => p.1 == k) = some (k, v) := by
  have hfind : (dictSet d k v).find? (fun p => p.1 == k) = some (k, v) := by
    unfold dictSet
    by_cases h : d.any (fun p => p.1 == k)
    · rw [if_pos h, dictFind?_map_set_self, if_pos h]
    · rw [if_neg h, List.find?_append,
        List.find?_eq_none.mpr
          (fun x hx hpx => h (List.any_eq_true.mpr ⟨x, hx, hpx⟩)),
        Option.none_or, List.find?_cons_of_pos _ (by simp)]
  exact ⟨by unfold dictGet; rw [hfind], hfind⟩

lemma dictFind?_set_ne (d : List (String × α)) {k k' : String} (v : α)
    (hne : k' ≠ k) :
    (dictSet d k v).find? (fun p => p.1 == k') =
      d.find? (fun p => p.1 == k') := by
  unfold dictSet
  by_cases h : d.any (fun p => p.1 == k)
  · rw [if_pos h, dictFind?_map_set_ne _ v hne]
  · rw [if_neg h, List.find?_append,
      List.find?_cons_of_neg _ (by simp [Ne.symm hne])]
    simp

lemma dictFind?_dictSet_self (d : List (String × α)) (k : String) (v : α) :
    dictFind? (dictSet d k v) k = some v := by
  unfold dictFind?
  rw [(dictFind?_set_self d k v).2]
  rfl

lemma dictFind?_dictSet_ne (d : List (String × α)) {k k' : String} (v : α)
    (hne : k' ≠ k) :
    dictFind? (dictSet d k v) k' = dictFind? d k' := by
  unfold dictFind?
  rw [dictFind?_set_ne d v hne]

lemma dictGet_eq_find (d : List (String × α)) (k : String) (dflt : α) :
    dictGet d k dflt = (dictFind? d k).getD dflt := by
  unfold dictGet dictFind?
  cases d.find? (fun p => p.1 == k) <;> rfl

lemma summary_fold_spec (k : String) :
    ∀ (lines : List CSVLine)
      (acc : List (String × ℚ) × List (String × ℚ) × List (String × Nat)),
      (dictFind? (lines.foldl summaryStep acc).1 k =
        (if dictFind? acc.1 k = none ∧
            lines.filter (fun l => lineKey l == k) = [] then none
         else some ((dictFind? acc.1 k).getD 0 +
           ((lines.filter (fun l => lineKey l == k)).map CSVLine.credit).sum))) ∧
      (dictFind? (lines.foldl summaryStep acc).2.1 k =
        (if dictFind? acc.2.1 k = none ∧
            lines.filter (fun l => lineKey l == k) = [] then none
         else some ((dictFind? acc.2.1 k).getD 0 +
           ((lines.filter (fun l => lineKey l == k)).map CSVLine.debit).sum))) ∧
      (dictFind? (lines.foldl summaryStep acc).2.2 k =
        (if dictFind? acc.2.2 k = none ∧
            lines.filter (fun l => lineKey l == k) = [] then none
         else some ((dictFind? acc.2.2 k).getD 0 +
           (lines.filter (fun l => lineKey l == k)).length))) := by
  intro lines
  induction lines with
  | nil =>
    intro acc
    refine ⟨?_, ?_, ?_⟩
    · cases hf : dictFind? acc.1 k <;> simp [hf]
    · cases hf : dictFind? acc.2.1 k <;> simp [hf]
    · cases hf : dictFind? acc.2.2 k <;> simp [hf]
  | cons l rest ih =>
    intro acc
    rw [List.foldl_cons]
    obtain ⟨ih1, ih2, ih3⟩ := ih (summaryStep acc l)
    by_cases hk : lineKey l = k
    · have hkb : (lineKey l == k) = true := by simp [hk]
      have hfilter : (l :: rest).filter (fun x => lineKey x == k) =
          l :: rest.filter (fun x => lineKey x == k) := by
        rw [List.filter_cons, if_pos hkb]
      have hstep1 : dictFind? (summaryStep acc l).1 k =
          some (dictGet acc.1 (lineKey l) 0 + l.credit) := by
        unfold summaryStep
        dsimp only
        rw [hk, dictFind?_dictSet_self]
      have hstep2 : dictFind? (summaryStep acc l).2.1 k =
          some (dictGet acc.2.1 (lineKey l) 0 + l.debit) := by
        unfold summaryStep
        dsimp only
        rw [hk, dictFind?_dictSet_self]
      have hstep3 : dictFind? (summaryStep acc l).2.2 k =
          some (dictGet acc.2.2 (lineKey l) 0 + 1) := by
        unfold summaryStep
        dsimp only
        rw [hk, dictFind?_dictSet_self]
      refine ⟨?_, ?_, ?_⟩
      · rw [ih1, hstep1, hfilter]
        rw [if_neg (by simp), if_neg (by simp [hfilter])]
        rw [Option.getD_some, List.map_cons, List.sum_cons, hk,
          dictGet_eq_find]
        congr 1
        ring
      · rw [ih2, hstep2, hfilter]
        rw [if_neg (by simp), if_neg (by simp [hfilter])]
        rw [Option.getD_some, List.map_cons, List.sum_cons, hk,
          dictGet_eq_find]
        congr 1
        ring
      · rw [ih3, hstep3, hfilter]
        rw [if_neg (by simp), if_neg (by simp [hfilter])]
        rw [Option.getD_some, List.length_cons, hk, dictGet_eq_find]
        congr 1
        omega
    · have hkb : (lineKey l == k) = false := by simp [hk]
      have hfilter : (l :: rest).filter (fun x => lineKey x == k) =
          rest.filter (fun x => lineKey x == k) := by
        rw [List.filter_cons, if_neg (by simp [hkb])]
      have hne : k ≠ lineKey l := fun hcon => hk hcon.symm
      have hstep1 : dictFind? (summaryStep acc l).1 k = dictFind? acc.1 k := by
        unfold summaryStep
        dsimp only
        rw [dictFind?_dictSet_ne _ _ hne]
      have hstep2 : dictFind? (summaryStep acc l).2.1 k = dictFind? acc.2.1 k := by
        unfold summaryStep
        dsimp only
        rw [dictFind?_dictSet_ne _ _ hne]
      have hstep3 : dictFind? (summaryStep acc l).2.2 k = dictFind? acc.2.2 k := by
        unfold summaryStep
        dsimp only
        rw [dictFind?_dictSet_ne _ _ hne]
      exact ⟨by rw [ih1, hstep1, hfilter], by rw [ih2, hstep2, hfilter],
        by rw [ih3, hstep3, hfilter]⟩

/-- **C2 counterexample.** The claim says the per-tag summary has no error
conditions and that empty data yields an empty summary mapping; but on the
state with empty `data` the operation raises `ValueError`: `tag_width` is
`max()` over the empty key sequence. -/
theorem print_global_summary_empty_fails :
    print_global_summary emptyState = .error .valueError := rfl

/-- **C2 (amended).** The per-tag dictionaries built by the summary loop
have no error conditions: every tag name (unset tags grouped under the
literal `"UNTAGGED"`) maps to the count, total credit and total debit of
its rows, and empty data builds empty dictionaries.  The full summary
operation, however, succeeds exactly on non-empty data: on empty data the
tag-width computation (`max` over an empty sequence) fails with
`ValueError` instead of returning the empty mapping. -/
theorem global_summary_correct (s : State) :
    (∀ k : String,
      dictFind? (global_summary s).1 k =
        (if s.data.filter (fun l => lineKey l == k) = [] then none
         else some (((s.data.filter (fun l => lineKey l == k)).map
           CSVLine.credit).sum)) ∧
      dictFind? (global_summary s).2.1 k =
        (if s.data.filter (fun l => lineKey l == k) = [] then none
         else some (((s.data.filter (fun l => lineKey l == k)).map
           CSVLine.debit).sum)) ∧
      dictFind? (global_summary s).2.2 k =
        (if s.data.filter (fun l => lineKey l == k) = [] then none
         else some ((s.data.filter (fun l => lineKey l == k)).length))) ∧
    (s.data = [] → global_summary s = ([], [], []) ∧
      print_global_summary s = .error .valueError) ∧
    (s.data ≠ [] → ∃ rows, print_global_summary s = .ok rows) := by
  have hchar : ∀ k : String,
      dictFind? (global_summary s).1 k =
        (if s.data.filter (fun l => lineKey l == k) = [] then none
         else some (((s.data.filter (fun l => lineKey l == k)).map
           CSVLine.credit).sum)) ∧
      dictFind? (global_summary s).2.1 k =
        (if s.data.filter (fun l => lineKey l == k) = [] then none
         else some (((s.data.filter (fun l => lineKey l == k)).map
           CSVLine.debit).sum)) ∧
      dictFind? (global_summary s).2.2 k =
        (if s.data.filter (fun l => lineKey l == k) = [] then none
         else some ((s.data.filter (fun l => lineKey l == k)).length)) := by
    intro k
    obtain ⟨h1, h2, h3⟩ := summary_fold_spec k s.data ([], [], [])
    have hnone : dictFind? (([], [], []) :
        List (String × ℚ) × List (String × ℚ) × List (String × Nat)).1 k
        = none := rfl
    refine ⟨?_, ?_, ?_⟩
    · rw [show global_summary s = s.data.foldl summaryStep ([], [], []) from rfl,
        h1]
      simp [dictFind?]
    · rw [show global_summary s = s.data.foldl summaryStep ([], [], []) from rfl,
        h2]
      simp [dictFind?]
    · rw [show global_summary s = s.data.foldl summaryStep ([], [], []) from rfl,
        h3]
      simp [dictFind?]
  refine ⟨hchar, ?_, ?_⟩
  · intro h
    constructor
    · rw [show global_summary s = s.data.foldl summaryStep ([], [], []) from rfl, h]
      rfl
    · unfold print_global_summary
      rw [show global_summary s = s.data.foldl summaryStep ([], [], []) from rfl, h]
      rfl
  · intro h
    obtain ⟨l, hl⟩ := List.exists_mem_of_ne_nil s.data h
    have hfilter_ne : s.data.filter (fun x => lineKey x == lineKey l) ≠ [] := by
      intro hcon
      have hmem : l ∈ s.data.filter (fun x => lineKey x == lineKey l) :=
        List.mem_filter.mpr ⟨hl, by simp⟩
      rw [hcon] at hmem
      cases hmem
    have hsome := (hchar (lineKey l)).2.2
    rw [if_neg hfilter_ne] at hsome
    have hcnt_ne : (global_summary s).2.2 ≠ [] := by
      intro hcon
      rw [hcon] at hsome
      cases hsome
    rcases hgs : global_summary s with ⟨tc, tdc⟩
    rcases tdc with ⟨td, cnt⟩
    rw [hgs] at hcnt_ne
    unfold print_global_summary
    rw [hgs]
    dsimp only
    rw [if_neg (by
      intro hcon
      exact hcnt_ne (List.isEmpty_iff.mp hcon))]
    exact ⟨_, rfl⟩

/-- Witness for C2 at the two-row aggregation example of the spec. -/
theorem global_summary_correct_witness :
    ∃ rows, print_global_summary exStateSum = .ok rows :=
  (global_summary_correct exStateSum).2.2 (by decide)

lemma charDigit_digitChar : ∀ n, n < 10 → charDigit (Nat.digitChar n) = some n := by
  decide

lemma daysInMonth_le_31 (y m : Nat) : daysInMonth y m ≤ 31 := by
  unfold daysInMonth
  split
  · split <;> omega
  · split <;> omega

lemma isoParse_isoFormat {d : PyDate} (hd : validDate d = true) :
    isoParse (isoFormat d) = some d := by
  have hb : 1 ≤ d.year ∧ d.year ≤ 9999 ∧ 1 ≤ d.month ∧ d.month ≤ 12 ∧
      1 ≤ d.day ∧ d.day ≤ daysInMonth d.year d.month := by
    simpa [validDate, and_assoc] using hd
  have hday31 : d.day ≤ 31 := le_trans hb.2.2.2.2.2 (daysInMonth_le_31 _ _)
  have hlist : (isoFormat d).toList =
      [Nat.digitChar (d.year / 1000 % 10), Nat.digitChar (d.year / 100 % 10),
       Nat.digitChar (d.year / 10 % 10), Nat.digitChar (d.year % 10), '-',
       Nat.digitChar (d.month / 10 % 10), Nat.digitChar (d.month % 10), '-',
       Nat.digitChar (d.day / 10 % 10), Nat.digitChar (d.day % 10)] := rfl
  unfold isoParse
  split
  · next y1 y2 y3 y4 s1 m1 m2 s2 d1 d2 heq =>
    rw [hlist] at heq
    simp only [List.cons.injEq, and_true] at heq
    obtain ⟨e1, e2, e3, e4, e5, e6, e7, e8, e9, e10⟩ := heq
    subst e1
    subst e2
    subst e3
    subst e4
    subst e5
    subst e6
    subst e7
    subst e8
    subst e9
    subst e10
    rw [if_pos ⟨rfl, rfl⟩]
    rw [charDigit_digitChar _ (by omega), charDigit_digitChar _ (by omega),
      charDigit_digitChar _ (by omega), charDigit_digitChar _ (by omega),
      charDigit_digitChar _ (by omega), charDigit_digitChar _ (by omega),
      charDigit_digitChar _ (by omega), charDigit_digitChar _ (by omega)]
    show mkDate
        (1000 * (d.year / 1000 % 10) + 100 * (d.year / 100 % 10) +
          10 * (d.year / 10 % 10) + d.year % 10)
        (10 * (d.month / 10 % 10) + d.month % 10)
        (10 * (d.day / 10 % 10) + d.day % 10) = some d
    rw [show 1000 * (d.year / 1000 % 10) + 100 * (d.year / 100 % 10) +
        10 * (d.year / 10 % 10) + d.year % 10 = d.year by omega,
      show 10 * (d.month / 10 % 10) + d.month % 10 = d.month by omega,
      show 10 * (d.day / 10 % 10) + d.day % 10 = d.day by omega]
    unfold mkDate
    rw [if_pos hd]
  · next x hne =>
    exact absurd (hlist.symm.trans (by rfl)) (by
      intro hcon
      exact hne _ _ _ _ _ _ _ _ _ _ hcon.symm)

lemma mapExcept_map_ok {f : β → Except ε α} {g : α → β} {l : List α}
    (hpt : ∀ a ∈ l, f (g a) = .ok a) :
    mapExcept f (l.map g) = .ok l := by
  induction l with
  | nil => rfl
  | cons a t ih =>
    rw [List.map_cons]
    simp only [mapExcept, hpt a (List.mem_cons_self a t), except_ok_bind,
      ih (fun x hx => hpt x (List.mem_cons_of_mem a hx)), except_pure_eq]

lemma jsonStr_str (s : String) : jsonStr (.str s) = .ok s := rfl

lemma jsonNum_num (q : ℚ) : jsonNum (.num q) = .ok q := rfl

lemma jsonInt_intCast (i : Int) : jsonInt (.num (i : ℚ)) = .ok i := by
  show (if ((i : ℚ)).den = 1 then Except.ok ((i : ℚ)).num
    else Except.error PyError.valueError) = .ok i
  rw [if_pos (Rat.den_intCast i), Rat.num_intCast]

lemma jsonDict_roundtrip {f : Json → Except PyError γ} {g : γ → Json}
    {d : List (String × γ)} (hpt : ∀ p ∈ d, f (g p.2) = .ok p.2) :
    jsonDict f (.obj (d.map (fun p => (p.1, g p.2)))) = .ok d := by
  unfold jsonDict
  apply mapExcept_map_ok
  intro p hp
  cases p with
  | mk k v =>
    simp only [hpt ⟨k, v⟩ hp, except_ok_bind, except_pure_eq]

lemma jsonList_roundtrip {f : Json → Except PyError γ} {g : γ → Json}
    {l : List γ} (hpt : ∀ a ∈ l, f (g a) = .ok a) :
    jsonList f (.arr (l.map g)) = .ok l := by
  unfold jsonList
  exact mapExcept_map_ok hpt

lemma jsonDate_roundtrip {d : PyDate} (hd : validDate d = true) :
    jsonDate (.str (isoFormat d)) = .ok d := by
  unfold jsonDate
  rw [show jsonStr (Json.str (isoFormat d)) = .ok (isoFormat d) from rfl,
    except_ok_bind, isoParse_isoFormat hd]

lemma jsonToMapping_roundtrip (m : CSVMapping) :
    jsonToMapping (mappingToJson m) = .ok m := by
  have hdts : jsonDict jsonInt
      (Json.obj (m.dates.map (fun p => (p.1, Json.num (p.2 : ℚ))))) =
      .ok m.dates :=
    jsonDict_roundtrip (g := fun v : Int => Json.num (v : ℚ))
      (fun p _ => jsonInt_intCast p.2)
  have hinf : jsonDict jsonInt
      (Json.obj (m.infos.map (fun p => (p.1, Json.num (p.2 : ℚ))))) =
      .ok m.infos :=
    jsonDict_roundtrip (g := fun v : Int => Json.num (v : ℚ))
      (fun p _ => jsonInt_intCast p.2)
  simp [jsonToMapping, mappingToJson, jsonField, hdts, hinf, jsonInt_intCast,
    except_ok_bind, except_pure_eq]

lemma jsonToLine_roundtrip (l : CSVLine) (hl : validLine l) :
    jsonToLine (lineToJson l) = .ok l := by
  have hcontent : jsonList jsonStr (.arr (l.content.map .str)) = .ok l.content :=
    jsonList_roundtrip (fun a _ => rfl)
  have hdts : jsonDict jsonDate
      (Json.obj (l.dates.map (fun p => (p.1, Json.str (isoFormat p.2))))) =
      .ok l.dates :=
    jsonDict_roundtrip (g := fun d => Json.str (isoFormat d))
      (fun p hp => jsonDate_roundtrip (hl.1 p hp))
  have hinf : jsonDict jsonStr
      (Json.obj (l.infos.map (fun p => (p.1, Json.str p.2)))) = .ok l.infos :=
    jsonDict_roundtrip (g := Json.str) (fun p _ => rfl)
  have htag : jsonOptStr
      (match l.tag with | none => Json.null | some t => Json.str t) =
      .ok l.tag := by
    cases l.tag <;> rfl
  simp [jsonToLine, lineToJson, jsonField, hcontent, hdts, hinf, htag,
    jsonNum_num, jsonStr_str, except_ok_bind, except_pure_eq]

lemma jsonToState_roundtrip (s : State) (hs : validState s) :
    jsonToState (stateToJson s) = .ok s := by
  have hmap : jsonToMapping (mappingToJson s.mapping) = .ok s.mapping :=
    jsonToMapping_roundtrip s.mapping
  have hdata : jsonList jsonToLine (.arr (s.data.map lineToJson)) = .ok s.data :=
    jsonList_roundtrip (fun a ha => jsonToLine_roundtrip a (hs.1 a ha))
  have hunp : jsonList (jsonList jsonStr)
      (.arr (s.unparsed.map (fun row => .arr (row.map .str)))) =
      .ok s.unparsed :=
    jsonList_roundtrip (fun row _ => jsonList_roundtrip (fun a _ => rfl))
  simp [jsonToState, stateToJson, jsonField, hmap, hdata, hunp,
    jsonInt_intCast, jsonStr_str, except_ok_bind, except_pure_eq]

/-- **C3.** For every valid persisted state whose `version` string differs
from the running program's `CURRENT_VERSION`, loading succeeds and returns
the full `SheetState` (version preserved), and the `validate` command
reports the mismatch as a non-fatal compatibility warning instead of
rejecting the document. -/
theorem load_version_mismatch_nonfatal (s : State) (v : String)
    (hs : validState s) (hv : v ≠ CURRENT_VERSION) :
    jsonToState (stateToJson { s with version := v }) =
      .ok { s with version := v } ∧
    validate_file (stateToJson { s with version := v }) = .parsed true := by
  have hs' : validState { s with version := v } := hs
  have hload := jsonToState_roundtrip _ hs'
  refine ⟨hload, ?_⟩
  unfold validate_file
  rw [hload]
  simp [hv]

/-- Witness for C3: the example state carries version `"0.0.9"`, different
from the program's `"0.1.0"`; load succeeds and validate warns. -/
theorem load_version_mismatch_nonfatal_witness :
    jsonToState (stateToJson { exStateFull with version := "0.0.9" }) =
      .ok { exStateFull with version := "0.0.9" } ∧
    validate_file (stateToJson { exStateFull with version := "0.0.9" }) =
      .parsed true :=
  load_version_mismatch_nonfatal exStateFull "0.0.9" (by decide) (by decide)

/-- **C4 counterexample.** `load(save(x)) == x` holds, but
`save(load(y)) == y` fails for a valid serialized document `y` that `load`
accepts: pydantic-style validation ignores unknown fields, so a document
with an extra field loads successfully, yet re-serializing drops the extra
field (already visible in the key list of the document). -/
theorem save_after_load_not_identity :
    jsonToState exDocExtra = .ok exStateFull ∧
    stateToJson exStateFull ≠ exDocExtra ∧
    objKeys (stateToJson exStateFull) ≠ objKeys exDocExtra := by
  refine ⟨by decide, ?_, by decide⟩
  intro h
  exact absurd (congrArg objKeys h) (by decide)

/-- **C4 (amended).** Serialization round-trips losslessly in one
direction: `load(save(x)) == x` for every valid `SheetState x`, all fields
(`version`, `cursor`, `mapping`, `data`, `unparsed`) preserved, including
empty `unparsed` or empty `data`; consequently `save(load(y)) == y` holds
for every document `y` in the image of `save` (the canonical layout the
program itself writes), though not for every accepted document (extra
fields are dropped). -/
theorem save_load_roundtrip (s : State) (hs : validState s) :
    jsonToState (stateToJson s) = .ok s ∧
    ∀ doc, doc = stateToJson s →
      ∃ s', jsonToState doc = .ok s' ∧ stateToJson s' = doc := by
  have h := jsonToState_roundtrip s hs
  exact ⟨h, fun doc hdoc => ⟨s, by rw [hdoc]; exact h, hdoc.symm⟩⟩

/-- Witness for C4 at the fully populated example state (which also has a
variant with empty `data` and `unparsed` covered by `emptyState` below). -/
theorem save_load_roundtrip_witness :
    jsonToState (stateToJson exStateFull) = .ok exStateFull ∧
    jsonToState (stateToJson emptyState) = .ok emptyState :=
  ⟨(save_load_roundtrip exStateFull (by decide)).1,
   (save_load_roundtrip emptyState (by decide)).1⟩
